import Mathlib

/-!
Verification model of the content-hub QML/daemon sources
(src/import/Ubuntu/Content/contenthub.cpp, which concatenates the QML
ContentHub wrapper, the daemon-side cucd::Handler, and the cuc::Peer
implementation).

Shallow embedding conventions:
* C++ heap pointers become `Nat` indices; `new` allocates the next index.
* Qt signal emissions become explicit event lists returned by each operation.
* `QHash<K, V>` becomes an association list with Qt semantics
  (`insert` replaces an existing key, `take` looks up and removes).
* An uninitialized `bool` member is an `Option Bool` that stays `none`
  until the source actually assigns it.
-/

namespace ContentHub

/-! ## Peer (cuc::Peer, from the peer.cpp part of the source)

`struct cuc::Peer::Private { QString id; };` — the only stored attribute is
the identifier string; the display name is recomputed from the id on demand
and never stored. A `Peer` object holds a shared pointer `d` to a `Private`;
copies share `d`. We model the pointer as an index into a heap list of
`Private` records; allocation appends. -/

structure PeerPrivate where
  id : String
deriving DecidableEq

/-- The heap of allocated `Peer::Private` blocks; a pointer is an index. -/
abbrev PeerHeap := List PeerPrivate

/-- Dereference a `Private` pointer (out-of-range reads give a default,
never reached under the allocation discipline used below). -/
def derefPrivate (h : PeerHeap) (p : Nat) : PeerPrivate :=
  h.getD p ⟨""⟩

/-- A `cuc::Peer` object: just the shared `d` pointer. Copy construction and
assignment share `d`, which plain value copying models. -/
structure Peer where
  d : Nat
deriving DecidableEq

/-- `Peer::unknown()`: a function-local static `cuc::Peer peer;`,
default-constructed, so its `Private` holds a null `QString` (equal to the
empty string under `QString::operator==`). We place its `Private` at
heap index 0, allocated before anything else. -/
def unknownPeer : Peer := ⟨0⟩

/-- The heap as it stands once the `unknown()` static has been constructed:
exactly the sentinel's `Private` with the empty id. -/
def initHeap : PeerHeap := [⟨""⟩]

/-- `Peer::Peer(const QString& id, ...)`: `new cuc::Peer::Private{id}` —
allocates a fresh `Private` holding `id` and returns the new object. -/
def allocPeer (h : PeerHeap) (i : String) : PeerHeap × Peer :=
  (h ++ [⟨i⟩], ⟨h.length⟩)

/-- `cuc::Peer::operator==`: first compares the `d` pointers, then the
stored id strings. -/
def peerEq (h : PeerHeap) (p q : Peer) : Bool :=
  if p.d == q.d then true
  else (derefPrivate h p.d).id == (derefPrivate h q.d).id

/-- `cuc::Peer::id()`: returns `d->id`. -/
def peerId (h : PeerHeap) (p : Peer) : String :=
  (derefPrivate h p.d).id

/-! ## Daemon-side endpoint (cucd::Handler, from the handler.cpp part)

`HandleImport(const QDBusObjectPath&)` logs and does `Q_UNUSED(transfer)` —
its body invokes nothing on `m_handler`. `HandleExport` constructs a
`cuc::dbus::Transfer` client proxy for the notified object path and calls
`m_handler->handle_export(client)`. We record the calls made on the
registered `cuc::ImportExportHandler` as an event list; a call event
carries the object path the constructed proxy points at. -/

/-- A call dispatched to the registered application-level handler. -/
inductive HandlerCall
  | importCall (path : String)
  | exportCall (path : String)
deriving DecidableEq

/-- `cucd::Handler::HandleImport`: logs, then `Q_UNUSED(transfer)` —
no call reaches the application-level handler. -/
def HandleImport (path : String) : List HandlerCall :=
  let _ := path
  []

/-- `cucd::Handler::HandleExport`: builds a dbus `Transfer` proxy for
`transfer.path()` and calls `m_handler->handle_export(client)`. -/
def HandleExport (path : String) : List HandlerCall :=
  [HandlerCall.exportCall path]

/-! ## Transfer state machine

Modelled from the spec: the `cuc::Transfer` class itself is not among the
files under src/ (only its QML wrapper, the daemon endpoint and `cuc::Peer`
are), so the state machine follows the spec's sections 4.1–4.2: states
`Created → InProgress → Charged → Finalized` with `Aborted` reachable from
any non-terminal state; only one side may fire the advancing transition at
a time, and the state value encodes whose turn it is (Created/InProgress:
the producer's turn, Charged: the consumer's turn); an out-of-turn or
illegal attempt fails with `InvalidTransition` and leaves the state
unchanged. -/

inductive TransferState
  | created
  | inProgress
  | charged
  | finalized
  | aborted
deriving DecidableEq, Fintype

/-- The two sides of an exchange. -/
inductive Side
  | producer
  | consumer
deriving DecidableEq, Fintype

/-- The named transitions a side can attempt. -/
inductive TransferOp
  | start
  | charge
  | finalize
  | abortT
deriving DecidableEq, Fintype

/-- Errors of the transition protocol. -/
inductive TransferError
  | InvalidTransition
deriving DecidableEq

/-- Modelled from the spec: whose turn the state value encodes
(Created/InProgress = producer's turn to charge; Charged = consumer's turn
to finalize; terminal states have no driver). -/
def stateDriver : TransferState → Option Side
  | .created => some .producer
  | .inProgress => some .producer
  | .charged => some .consumer
  | .finalized => none
  | .aborted => none

/-- Modelled from the spec: the single state the advancing transition
reaches from each non-terminal state. -/
def advanceTarget : TransferState → Option TransferState
  | .created => some .inProgress
  | .inProgress => some .charged
  | .charged => some .finalized
  | .finalized => none
  | .aborted => none

/-- Modelled from the spec: the state each advancing transition fires from
(`start`: Created, `charge`: InProgress, `finalize`: Charged; `abortT` has
no single source — it is legal from every non-terminal state). -/
def opSource : TransferOp → Option TransferState
  | .start => some .created
  | .charge => some .inProgress
  | .finalize => some .charged
  | .abortT => none

/-- Modelled from the spec: a side attempts a transition against the
current state; the result is the new state together with the error, the
state being returned unchanged on failure. `start` and `charge` belong to
the producer, `finalize` to the consumer; `abortT` is accepted from either
side at any non-terminal state. -/
def attemptTransition (side : Side) (op : TransferOp) (s : TransferState) :
    TransferState × Option TransferError :=
  match op with
  | .abortT =>
      if s = .finalized ∨ s = .aborted then (s, some .InvalidTransition)
      else (.aborted, none)
  | .start =>
      if s = .created ∧ side = .producer then (.inProgress, none)
      else (s, some .InvalidTransition)
  | .charge =>
      if s = .inProgress ∧ side = .producer then (.charged, none)
      else (s, some .InvalidTransition)
  | .finalize =>
      if s = .charged ∧ side = .consumer then (.finalized, none)
      else (s, some .InvalidTransition)

/-! ## QML ContentHub facade (the contenthub.cpp part)

State: `m_activeImports : QHash<cuc::Transfer*, ContentTransfer*>`,
`m_finishedImports : QList<ContentTransfer*>`, and the `bool m_hasPending`
member, which the constructor initializer list leaves untouched and which
is assigned only inside the `!id.isEmpty()` branch. Hub-service transfer
pointers and QML `ContentTransfer` pointers are `Nat`; fresh allocations
take the next counter value. Emitted Qt signals are returned as an event
list. -/

/-- `QHash::contains`. -/
def qhashContains (m : List (Nat × Nat)) (k : Nat) : Bool :=
  m.any (fun e => e.1 == k)

/-- The removal part of `QHash::take` / `QHash::remove`. -/
def qhashRemove (m : List (Nat × Nat)) (k : Nat) : List (Nat × Nat) :=
  m.filter (fun e => !(e.1 == k))

/-- The value part of `QHash::take`: the stored value for `k` (the source
only calls it under `contains`, so the default is never reached). -/
def qhashTake (m : List (Nat × Nat)) (k : Nat) : Nat :=
  ((m.find? (fun e => e.1 == k)).map Prod.snd).getD 0

/-- `QHash::insert`: replaces any existing entry for the key. -/
def qhashInsert (m : List (Nat × Nat)) (k v : Nat) : List (Nat × Nat) :=
  qhashRemove m k ++ [(k, v)]

/-- Direction tag of a hub-service transfer creation
(`create_import_from_peer_for_type` / `create_export_to_peer_for_type` /
`create_share_to_peer_for_type`). -/
inductive Direction
  | importD
  | exportD
  | shareD
deriving DecidableEq

/-- The Qt signals `ContentHub` emits. -/
inductive HubEvent
  | importRequested (qml : Nat)
  | exportRequested (qml : Nat)
  | shareRequested (qml : Nat)
  | finishedImportsChanged
deriving DecidableEq

/-- The observable state of a `ContentHub` instance, plus allocation
counters for the two pointer spaces and a log of the hub-service
transfer creations (pointer, direction, peer, content type). -/
structure HubState where
  activeImports : List (Nat × Nat)
  finishedImports : List Nat
  nextQml : Nat
  svcNext : Nat
  created : List (Nat × Direction × Peer × Nat)
  hasPendingField : Option Bool
deriving DecidableEq

/-- The member state after the constructor's initializer list:
empty containers and a never-assigned `m_hasPending`. -/
def initialHubState : HubState :=
  { activeImports := []
    finishedImports := []
    nextQml := 0
    svcNext := 0
    created := []
    hasPendingField := none }

/-- The constructor's environment: `app_id()` and the hub service's
`has_pending` query. -/
structure HubEnv where
  appId : String
  pendingSvc : String → Bool

/-- `ContentHub::ContentHub`: registers the handler, then
`if (!id.isEmpty()) m_hasPending = m_hub->has_pending(id);` (a `QString`
is empty exactly when it equals the empty string). Returns the state
together with how many times `has_pending` was queried. -/
def contentHubCtor (env : HubEnv) : HubState × Nat :=
  if env.appId = "" then (initialHubState, 0)
  else ({ initialHubState with hasPendingField := some (env.pendingSvc env.appId) }, 1)

/-- `ContentHub::hasPending`: `return m_hasPending;` — a plain read of the
member, `none` meaning the member was never assigned. -/
def hasPending (s : HubState) : Option Bool :=
  s.hasPendingField

/-- `ContentHub::importContent`: asks the hub service for a fresh
`cuc::Transfer` for the peer and type, wraps it in a new `ContentTransfer`,
inserts the pair into `m_activeImports` and returns the wrapper. -/
def importContent (s : HubState) (p : Peer) (ct : Nat) : HubState × Nat :=
  let hubT := s.svcNext
  let qml := s.nextQml
  ({ s with
      svcNext := s.svcNext + 1
      nextQml := s.nextQml + 1
      created := s.created ++ [(hubT, Direction.importD, p, ct)]
      activeImports := qhashInsert s.activeImports hubT qml },
   qml)

/-- `ContentHub::exportContent`: as `importContent`, through
`create_export_to_peer_for_type`. -/
def exportContent (s : HubState) (p : Peer) (ct : Nat) : HubState × Nat :=
  let hubT := s.svcNext
  let qml := s.nextQml
  ({ s with
      svcNext := s.svcNext + 1
      nextQml := s.nextQml + 1
      created := s.created ++ [(hubT, Direction.exportD, p, ct)]
      activeImports := qhashInsert s.activeImports hubT qml },
   qml)

/-- `ContentHub::shareContent`: as `importContent`, through
`create_share_to_peer_for_type`. -/
def shareContent (s : HubState) (p : Peer) (ct : Nat) : HubState × Nat :=
  let hubT := s.svcNext
  let qml := s.nextQml
  ({ s with
      svcNext := s.svcNext + 1
      nextQml := s.nextQml + 1
      created := s.created ++ [(hubT, Direction.shareD, p, ct)]
      activeImports := qhashInsert s.activeImports hubT qml },
   qml)

/-- `ContentHub::handleImport`: if the transfer is in `m_activeImports` it
is taken (removed) and its items collected, with no signal; otherwise a new
wrapper is built and `importRequested` is emitted. Either way the wrapper
is appended to `m_finishedImports` and `finishedImportsChanged` is
emitted. -/
def handleImport (s : HubState) (t : Nat) : HubState × List HubEvent :=
  if qhashContains s.activeImports t then
    let qml := qhashTake s.activeImports t
    ({ s with
        activeImports := qhashRemove s.activeImports t
        finishedImports := s.finishedImports ++ [qml] },
     [HubEvent.finishedImportsChanged])
  else
    let qml := s.nextQml
    ({ s with
        nextQml := s.nextQml + 1
        finishedImports := s.finishedImports ++ [qml] },
     [HubEvent.importRequested qml, HubEvent.finishedImportsChanged])

/-- `ContentHub::handleExport`: like `handleImport`, except that in the
unknown branch the new wrapper is inserted into `m_activeImports` before
`exportRequested` is emitted. -/
def handleExport (s : HubState) (t : Nat) : HubState × List HubEvent :=
  if qhashContains s.activeImports t then
    let qml := qhashTake s.activeImports t
    ({ s with
        activeImports := qhashRemove s.activeImports t
        finishedImports := s.finishedImports ++ [qml] },
     [HubEvent.finishedImportsChanged])
  else
    let qml := s.nextQml
    ({ s with
        nextQml := s.nextQml + 1
        activeImports := qhashInsert s.activeImports t qml
        finishedImports := s.finishedImports ++ [qml] },
     [HubEvent.exportRequested qml, HubEvent.finishedImportsChanged])

/-- `ContentHub::handleShare`: the same shape as `handleImport`, emitting
`shareRequested` in the unknown branch. -/
def handleShare (s : HubState) (t : Nat) : HubState × List HubEvent :=
  if qhashContains s.activeImports t then
    let qml := qhashTake s.activeImports t
    ({ s with
        activeImports := qhashRemove s.activeImports t
        finishedImports := s.finishedImports ++ [qml] },
     [HubEvent.finishedImportsChanged])
  else
    let qml := s.nextQml
    ({ s with
        nextQml := s.nextQml + 1
        finishedImports := s.finishedImports ++ [qml] },
     [HubEvent.shareRequested qml, HubEvent.finishedImportsChanged])

/-- Any of the hub's six operations, for stating facts that range over
whatever the hub can do after construction. -/
inductive HubOp
  | reqImport (p : Peer) (ct : Nat)
  | reqExport (p : Peer) (ct : Nat)
  | reqShare (p : Peer) (ct : Nat)
  | notifyImport (t : Nat)
  | notifyExport (t : Nat)
  | notifyShare (t : Nat)

/-- One hub operation as a step on the state, with its emitted signals. -/
def hubStep (s : HubState) : HubOp → HubState × List HubEvent
  | .reqImport p ct => ((importContent s p ct).1, [])
  | .reqExport p ct => ((exportContent s p ct).1, [])
  | .reqShare p ct => ((shareContent s p ct).1, [])
  | .notifyImport t => handleImport s t
  | .notifyExport t => handleExport s t
  | .notifyShare t => handleShare s t

/-- Run a sequence of hub operations from a state. -/
def runOps (s : HubState) : List HubOp → HubState
  | [] => s
  | op :: rest => runOps (hubStep s op).1 rest

/-- Does an event announce a new inbound request to the application
(`importRequested`, `exportRequested` or `shareRequested`)? -/
def isRequestSignal : HubEvent → Bool
  | .importRequested _ => true
  | .exportRequested _ => true
  | .shareRequested _ => true
  | .finishedImportsChanged => false

/-- Is an event specifically `importRequested`? -/
def isImportRequested : HubEvent → Bool
  | .importRequested _ => true
  | _ => false

/-- Is an event `finishedImportsChanged`? -/
def isFinishedChanged : HubEvent → Bool
  | .finishedImportsChanged => true
  | _ => false

/-- How many of the emitted events satisfy a predicate. -/
def countEvents (p : HubEvent → Bool) (l : List HubEvent) : Nat :=
  (l.filter p).length

/-! ## Helper lemmas -/

/-- Removing a key leaves a hash that no longer contains it. -/
theorem qhashContains_remove_self (m : List (Nat × Nat)) (k : Nat) :
    qhashContains (qhashRemove m k) k = false := by
  induction m with
  | nil => rfl
  | cons a tl ih =>
      by_cases hk : a.1 = k
      · simp [qhashRemove, qhashContains, hk]
      · simp [qhashRemove, qhashContains, hk]

/-- After an insert the hash contains the inserted key. -/
theorem qhashContains_insert_self (m : List (Nat × Nat)) (k v : Nat) :
    qhashContains (qhashInsert m k v) k = true := by
  simp [qhashContains, qhashInsert]

/-- No hub operation writes the `m_hasPending` member. -/
theorem hubStep_hasPendingField (s : HubState) (op : HubOp) :
    (hubStep s op).1.hasPendingField = s.hasPendingField := by
  cases op with
  | reqImport p ct => rfl
  | reqExport p ct => rfl
  | reqShare p ct => rfl
  | notifyImport t =>
      by_cases hc : qhashContains s.activeImports t = true <;>
        simp [hubStep, handleImport, hc]
  | notifyExport t =>
      by_cases hc : qhashContains s.activeImports t = true <;>
        simp [hubStep, handleExport, hc]
  | notifyShare t =>
      by_cases hc : qhashContains s.activeImports t = true <;>
        simp [hubStep, handleShare, hc]

/-- No sequence of hub operations writes the `m_hasPending` member. -/
theorem runOps_hasPendingField (s : HubState) (ops : List HubOp) :
    (runOps s ops).hasPendingField = s.hasPendingField := by
  induction ops generalizing s with
  | nil => rfl
  | cons op rest ih =>
      rw [runOps, ih, hubStep_hasPendingField]

/-- Reading a freshly appended heap cell at the old length gives the new
cell. -/
theorem getD_concat_length (l : List PeerPrivate) (x d : PeerPrivate) :
    (l ++ [x]).getD l.length d = x := by
  induction l with
  | nil => rfl
  | cons a tl ih => simp only [List.cons_append, List.length_cons, List.getD_cons_succ]; exact ih

/-- Reading an appended heap below the old length sees the old cell. -/
theorem getD_append_lt (l l2 : List PeerPrivate) (n : Nat) (d : PeerPrivate)
    (hn : n < l.length) : (l ++ l2).getD n d = l.getD n d := by
  induction l generalizing n with
  | nil => exact absurd hn (by simp)
  | cons a tl ih =>
      cases n with
      | zero => rfl
      | succ m => simpa using ih m (Nat.lt_of_succ_lt_succ hn)

/-! ## Claims -/

/-- Claim C1: for every transfer state, a transition attempt made by the
side whose turn it is not fails with `InvalidTransition` and leaves the
state unchanged; among the advancing transitions, exactly the single legal
one (the op firing from the current state, attempted by the state's
driver) succeeds, and it moves the state to the unique next state. -/
theorem C1_driver_handoff :
    ∀ (side : Side) (op : TransferOp) (s : TransferState),
      op ≠ TransferOp.abortT →
      (stateDriver s ≠ some side →
        attemptTransition side op s = (s, some TransferError.InvalidTransition)) ∧
      ((attemptTransition side op s).2 = none ↔
        stateDriver s = some side ∧ opSource op = some s) ∧
      ((attemptTransition side op s).2 = none →
        some (attemptTransition side op s).1 = advanceTarget s) ∧
      ((attemptTransition side op s).2 = some TransferError.InvalidTransition →
        (attemptTransition side op s).1 = s) := by
  decide

/-- Claim C1 witness: the consumer attempting to charge an in-progress
transfer is out of turn and is rejected with the state unchanged. -/
theorem C1_driver_handoff_witness :
    attemptTransition Side.consumer TransferOp.charge TransferState.inProgress =
      (TransferState.inProgress, some TransferError.InvalidTransition) :=
  (C1_driver_handoff Side.consumer TransferOp.charge TransferState.inProgress
    (by decide)).1 (by decide)

/-- Claim C2: `cuc::Peer::operator==` holds exactly when the two objects
share the `d` identity data or their stored id strings are equal; the
`Private` record stores nothing but the id, so no other attribute can
affect equality. -/
theorem C2_peer_eq_by_id (h : PeerHeap) (p q : Peer) :
    peerEq h p q = true ↔ (p.d = q.d ∨ peerId h p = peerId h q) := by
  by_cases hd : p.d = q.d <;> simp [peerEq, peerId, hd]

/-- Claim C3 counterexample: a peer constructed with the empty identifier
(the value `Peer::unknown()`'s null `QString` also compares equal to)
compares equal to the unknown sentinel, refuting the claim that every
constructed peer compares unequal to it. -/
theorem C3_counterexample :
    peerEq (allocPeer initHeap "").1 (allocPeer initHeap "").2 unknownPeer = true := by
  decide

/-- Claim C3 (amended): a peer constructed with a non-empty application
identifier compares unequal to `Peer::unknown()`, whose stored id is the
empty string. -/
theorem C3_unknown_unequal (h : PeerHeap) (i : String)
    (hne : h ≠ []) (hid : peerId h unknownPeer = "") (hi : i ≠ "") :
    peerEq (allocPeer h i).1 (allocPeer h i).2 unknownPeer = false := by
  have hlen : 0 < h.length := List.length_pos.mpr hne
  have hBeq : ((allocPeer h i).2.d == unknownPeer.d) = false := by
    simp only [allocPeer, unknownPeer]
    simp [Nat.pos_iff_ne_zero.mp hlen]
  have hNew : derefPrivate (allocPeer h i).1 (allocPeer h i).2.d = ⟨i⟩ :=
    getD_concat_length h ⟨i⟩ ⟨""⟩
  have hOld : derefPrivate (allocPeer h i).1 unknownPeer.d = derefPrivate h 0 := by
    simp only [allocPeer, derefPrivate, unknownPeer]
    exact getD_append_lt h [⟨i⟩] 0 ⟨""⟩ hlen
  have hid0 : (derefPrivate h 0).id = "" := hid
  simp [peerEq, hBeq, hNew, hOld, hid0, hi]

/-- Claim C3 witness: a concrete peer with a non-empty id is unequal to
the sentinel. -/
theorem C3_unknown_unequal_witness :
    peerEq (allocPeer initHeap "gallery.example").1
      (allocPeer initHeap "gallery.example").2 unknownPeer = false :=
  C3_unknown_unequal initHeap "gallery.example" (by decide) (by decide) (by decide)

/-- Claim C4 counterexample: an inbound import notification invokes no
callback at all — `cucd::Handler::HandleImport` ignores its argument, so
the registered handler's import callback is never called. -/
theorem C4_counterexample :
    ¬ HandlerCall.importCall "/transfers/1" ∈ HandleImport "/transfers/1" := by
  decide

/-- Claim C4 (amended): an inbound export notification invokes the
registered handler's export callback with a transfer proxy for the
notified object path; an inbound import notification invokes nothing. -/
theorem C4_dispatch (p : String) :
    HandleImport p = [] ∧ HandleExport p = [HandlerCall.exportCall p] :=
  ⟨rfl, rfl⟩

/-- Claim C5: each of `importContent`, `exportContent` and `shareContent`
asks the hub service for a fresh transfer for the given peer and content
type (the creation log grows by that one record and the service allocator
advances), registers the wrapper in `m_activeImports`, and returns the
consumer-side handle at once, touching neither `m_finishedImports` nor
`m_hasPending` and waiting on no state change. -/
theorem C5_request_ops (s : HubState) (p : Peer) (ct : Nat) :
    ((importContent s p ct).2 = s.nextQml ∧
     (importContent s p ct).1.activeImports =
       qhashInsert s.activeImports s.svcNext s.nextQml ∧
     qhashContains (importContent s p ct).1.activeImports s.svcNext = true ∧
     (importContent s p ct).1.created =
       s.created ++ [(s.svcNext, Direction.importD, p, ct)] ∧
     (importContent s p ct).1.svcNext = s.svcNext + 1 ∧
     (importContent s p ct).1.finishedImports = s.finishedImports ∧
     (importContent s p ct).1.hasPendingField = s.hasPendingField) ∧
    ((exportContent s p ct).2 = s.nextQml ∧
     (exportContent s p ct).1.activeImports =
       qhashInsert s.activeImports s.svcNext s.nextQml ∧
     qhashContains (exportContent s p ct).1.activeImports s.svcNext = true ∧
     (exportContent s p ct).1.created =
       s.created ++ [(s.svcNext, Direction.exportD, p, ct)] ∧
     (exportContent s p ct).1.svcNext = s.svcNext + 1 ∧
     (exportContent s p ct).1.finishedImports = s.finishedImports ∧
     (exportContent s p ct).1.hasPendingField = s.hasPendingField) ∧
    ((shareContent s p ct).2 = s.nextQml ∧
     (shareContent s p ct).1.activeImports =
       qhashInsert s.activeImports s.svcNext s.nextQml ∧
     qhashContains (shareContent s p ct).1.activeImports s.svcNext = true ∧
     (shareContent s p ct).1.created =
       s.created ++ [(s.svcNext, Direction.shareD, p, ct)] ∧
     (shareContent s p ct).1.svcNext = s.svcNext + 1 ∧
     (shareContent s p ct).1.finishedImports = s.finishedImports ∧
     (shareContent s p ct).1.hasPendingField = s.hasPendingField) :=
  ⟨⟨rfl, rfl, qhashContains_insert_self s.activeImports s.svcNext s.nextQml,
    rfl, rfl, rfl, rfl⟩,
   ⟨rfl, rfl, qhashContains_insert_self s.activeImports s.svcNext s.nextQml,
    rfl, rfl, rfl, rfl⟩,
   ⟨rfl, rfl, qhashContains_insert_self s.activeImports s.svcNext s.nextQml,
    rfl, rfl, rfl, rfl⟩⟩

/-- Claim C6 counterexample: two inbound import notifications for the same
hub transfer (id 5), starting from the freshly constructed hub, emit
`importRequested` twice — the signal is not at-most-once per transfer. -/
theorem C6_counterexample :
    countEvents isImportRequested
      ((handleImport initialHubState 5).2 ++
        (handleImport (handleImport initialHubState 5).1 5).2) = 2 := by
  decide

/-- Claim C6 (amended): within one inbound notification at most one request
signal is emitted, and none at all when the transfer is in the hub's active
table (in particular on the first notification for a transfer the hub
itself created); the signals are not at-most-once per transfer, because
`handleImport` and `handleShare` neither insert an unknown transfer into
the table nor keep a known one there, so repeated notifications re-emit;
only `handleExport` inserts the unknown transfer, so an immediately
repeated export notification is suppressed. -/
theorem C6_notification_signals (s : HubState) (t : Nat) :
    (countEvents isRequestSignal (handleImport s t).2 ≤ 1 ∧
     countEvents isRequestSignal (handleExport s t).2 ≤ 1 ∧
     countEvents isRequestSignal (handleShare s t).2 ≤ 1) ∧
    (qhashContains s.activeImports t = true →
      countEvents isRequestSignal (handleImport s t).2 = 0 ∧
      countEvents isRequestSignal (handleExport s t).2 = 0 ∧
      countEvents isRequestSignal (handleShare s t).2 = 0) ∧
    (qhashContains s.activeImports t = false →
      countEvents isRequestSignal (handleExport (handleExport s t).1 t).2 = 0) := by
  cases hc : qhashContains s.activeImports t with
  | true =>
      refine ⟨⟨?_, ?_, ?_⟩, fun _ => ⟨?_, ?_, ?_⟩,
        fun hfalse => absurd hfalse (by decide)⟩ <;>
        simp [handleImport, handleExport, handleShare, hc,
          countEvents, isRequestSignal]
  | false =>
      refine ⟨⟨?_, ?_, ?_⟩, fun htrue => absurd htrue (by decide), fun _ => ?_⟩
      · simp [handleImport, hc, countEvents, isRequestSignal]
      · simp [handleExport, hc, countEvents, isRequestSignal]
      · simp [handleShare, hc, countEvents, isRequestSignal]
      · simp [handleExport, hc, qhashContains_insert_self,
          countEvents, isRequestSignal]

/-- Claim C6 witness: concrete instances — an import notification for a
transfer the hub holds in its active table emits no request signal, and an
immediately repeated export notification for an unknown transfer emits no
request signal the second time. -/
theorem C6_notification_signals_witness :
    countEvents isRequestSignal
      (handleImport { initialHubState with activeImports := [(5, 7)] } 5).2 = 0 ∧
    countEvents isRequestSignal
      (handleExport (handleExport initialHubState 5).1 5).2 = 0 :=
  ⟨((C6_notification_signals { initialHubState with activeImports := [(5, 7)] } 5).2.1
      (by decide)).1,
   (C6_notification_signals initialHubState 5).2.2 (by decide)⟩

/-- Claim C7 counterexample: with an empty application id the constructor
never queries the hub service's pending flag at all — the query count is 0,
not 1, refuting "queried exactly once at construction". -/
theorem C7_counterexample :
    (contentHubCtor { appId := "", pendingSvc := fun _ => false }).2 ≠ 1 := by
  decide

/-- Claim C7 (amended): when the application's identifier is non-empty, the
pending flag is queried exactly once, at construction, with that
identifier; every later `hasPending()` call returns that cached value
unchanged, whatever sequence of hub operations (requests or inbound
notifications) happens in between. With an empty identifier it is never
queried. -/
theorem C7_pending_cached (env : HubEnv) (ops : List HubOp)
    (hne : env.appId ≠ "") :
    (contentHubCtor env).2 = 1 ∧
    hasPending (runOps (contentHubCtor env).1 ops) =
      some (env.pendingSvc env.appId) := by
  constructor
  · simp [contentHubCtor, hne]
  · show (runOps (contentHubCtor env).1 ops).hasPendingField = _
    rw [runOps_hasPendingField]
    simp [contentHubCtor, hne]

/-- Claim C7 witness: a hub constructed for application id "app" records
one query, and after an inbound import notification `hasPending` still
returns the cached value. -/
theorem C7_pending_cached_witness :
    (contentHubCtor { appId := "app", pendingSvc := fun _ => true }).2 = 1 ∧
    hasPending (runOps
      (contentHubCtor { appId := "app", pendingSvc := fun _ => true }).1
      [HubOp.notifyImport 3]) = some true :=
  C7_pending_cached { appId := "app", pendingSvc := fun _ => true }
    [HubOp.notifyImport 3] (by decide)

/-- Claim C8: each invocation of `handleImport`, `handleExport` or
`handleShare` appends exactly one wrapper to `m_finishedImports` and emits
`finishedImportsChanged` exactly once, in both the known and the unknown
branch; moreover no hub operation ever removes anything from
`m_finishedImports` — every step only extends it. -/
theorem C8_finished_append (s : HubState) (t : Nat) :
    (∃ x, (handleImport s t).1.finishedImports = s.finishedImports ++ [x]) ∧
    countEvents isFinishedChanged (handleImport s t).2 = 1 ∧
    (∃ x, (handleExport s t).1.finishedImports = s.finishedImports ++ [x]) ∧
    countEvents isFinishedChanged (handleExport s t).2 = 1 ∧
    (∃ x, (handleShare s t).1.finishedImports = s.finishedImports ++ [x]) ∧
    countEvents isFinishedChanged (handleShare s t).2 = 1 ∧
    (∀ op, ∃ u, (hubStep s op).1.finishedImports = s.finishedImports ++ u) := by
  have hstep : ∀ op, ∃ u, (hubStep s op).1.finishedImports = s.finishedImports ++ u := by
    intro op
    cases op with
    | reqImport p ct => exact ⟨[], by simp [hubStep, importContent]⟩
    | reqExport p ct => exact ⟨[], by simp [hubStep, exportContent]⟩
    | reqShare p ct => exact ⟨[], by simp [hubStep, shareContent]⟩
    | notifyImport u =>
        cases hc : qhashContains s.activeImports u with
        | true => exact ⟨[qhashTake s.activeImports u], by simp [hubStep, handleImport, hc]⟩
        | false => exact ⟨[s.nextQml], by simp [hubStep, handleImport, hc]⟩
    | notifyExport u =>
        cases hc : qhashContains s.activeImports u with
        | true => exact ⟨[qhashTake s.activeImports u], by simp [hubStep, handleExport, hc]⟩
        | false => exact ⟨[s.nextQml], by simp [hubStep, handleExport, hc]⟩
    | notifyShare u =>
        cases hc : qhashContains s.activeImports u with
        | true => exact ⟨[qhashTake s.activeImports u], by simp [hubStep, handleShare, hc]⟩
        | false => exact ⟨[s.nextQml], by simp [hubStep, handleShare, hc]⟩
  cases hc : qhashContains s.activeImports t with
  | true =>
      exact ⟨⟨qhashTake s.activeImports t, by simp [handleImport, hc]⟩,
        by simp [handleImport, hc, countEvents, isFinishedChanged],
        ⟨qhashTake s.activeImports t, by simp [handleExport, hc]⟩,
        by simp [handleExport, hc, countEvents, isFinishedChanged],
        ⟨qhashTake s.activeImports t, by simp [handleShare, hc]⟩,
        by simp [handleShare, hc, countEvents, isFinishedChanged],
        hstep⟩
  | false =>
      exact ⟨⟨s.nextQml, by simp [handleImport, hc]⟩,
        by simp [handleImport, hc, countEvents, isFinishedChanged],
        ⟨s.nextQml, by simp [handleExport, hc]⟩,
        by simp [handleExport, hc, countEvents, isFinishedChanged],
        ⟨s.nextQml, by simp [handleShare, hc]⟩,
        by simp [handleShare, hc, countEvents, isFinishedChanged],
        hstep⟩

/-- Claim C9: the three notification handlers treat `m_activeImports`
asymmetrically — after `handleImport` or `handleShare` the transfer is
absent from the table whether or not it was known (the known branch takes
it out, the unknown branch never inserts it), while `handleExport` on a
previously-unknown transfer inserts it, so an immediately repeated export
notification takes the known branch and emits no request signal. -/
theorem C9_active_map_asymmetry (s : HubState) (t : Nat) :
    qhashContains (handleImport s t).1.activeImports t = false ∧
    qhashContains (handleShare s t).1.activeImports t = false ∧
    (qhashContains s.activeImports t = false →
      qhashContains (handleExport s t).1.activeImports t = true ∧
      countEvents isRequestSignal (handleExport (handleExport s t).1 t).2 = 0) := by
  refine ⟨?_, ?_, fun hc => ⟨?_, ?_⟩⟩
  · cases hc : qhashContains s.activeImports t with
    | true => simp [handleImport, hc, qhashContains_remove_self]
    | false => simp [handleImport, hc]
  · cases hc : qhashContains s.activeImports t with
    | true => simp [handleShare, hc, qhashContains_remove_self]
    | false => simp [handleShare, hc]
  · simp [handleExport, hc, qhashContains_insert_self]
  · simp [handleExport, hc, qhashContains_insert_self,
      countEvents, isRequestSignal]

/-- Claim C9 witness: for a fresh hub and transfer id 5, an export
notification leaves the transfer in the active table and a second export
notification emits no request signal. -/
theorem C9_active_map_asymmetry_witness :
    qhashContains (handleExport initialHubState 5).1.activeImports 5 = true ∧
    countEvents isRequestSignal
      (handleExport (handleExport initialHubState 5).1 5).2 = 0 :=
  (C9_active_map_asymmetry initialHubState 5).2.2 (by decide)

/-- Claim C10: `hasPending()` reads a member that is assigned only in the
non-empty-id branch of the constructor — with an empty application id the
member stays unassigned (modelled `none`) through every later hub
operation, while a non-empty id guarantees a defined value. -/
theorem C10_haspending_defined (env : HubEnv) (ops : List HubOp) :
    (env.appId = "" →
      hasPending (runOps (contentHubCtor env).1 ops) = none) ∧
    (env.appId ≠ "" →
      ∃ b, hasPending (runOps (contentHubCtor env).1 ops) = some b) := by
  constructor
  · intro he
    show (runOps (contentHubCtor env).1 ops).hasPendingField = none
    rw [runOps_hasPendingField]
    simp [contentHubCtor, he, initialHubState]
  · intro hne
    refine ⟨env.pendingSvc env.appId, ?_⟩
    show (runOps (contentHubCtor env).1 ops).hasPendingField = _
    rw [runOps_hasPendingField]
    simp [contentHubCtor, hne]

/-- Claim C10 witness: with the empty id the member is still unassigned
after construction; with a non-empty id it is defined. -/
theorem C10_haspending_defined_witness :
    hasPending (runOps
      (contentHubCtor { appId := "", pendingSvc := fun _ => false }).1 []) = none ∧
    ∃ b, hasPending (runOps
      (contentHubCtor { appId := "x", pendingSvc := fun _ => false }).1 []) = some b :=
  ⟨(C10_haspending_defined { appId := "", pendingSvc := fun _ => false } []).1 rfl,
   (C10_haspending_defined { appId := "x", pendingSvc := fun _ => false } []).2 (by decide)⟩

end ContentHub
